import Mathlib

/-!
Shallow embedding of `rlpoker/agent.py`: the two experience buffers
(`Reservoir`, `CircularBuffer`), the TensorFlow-graph fragments of `Agent`
that the verified properties depend on (variable scoping, `get_collection`,
the target-network update ops, the Q-learning bootstrap target), and the
shape assertions of the prediction methods.  Machine floats are modelled
over `ℚ`; the random draws consumed by `np.random` / `random` are passed in
explicitly as parameters.
-/

namespace RLPoker

/-- Errors of the design's error taxonomy.  In the Python source they
surface as `ValueError` (raised by `random.sample` when the request exceeds
the population, the design's `InsufficientDataError`) and `AssertionError`
(raised by the `assert` statements of `predict_q` / `predict_policy`, the
design's `ShapeMismatchError`). -/
inductive AgentError
  | insufficientData
  | shapeMismatch
deriving DecidableEq, Repr

/-- One selection step of `random.sample`: draw an index of the remaining
pool from the random stream, remove that element, recurse.  CPython uses
either a partial Fisher-Yates shuffle or set-based index rejection; both
select `n` distinct positions of the population, which is what this model
keeps. -/
def sampleAux : Nat → List Nat → List α → List α
  | 0, _, _ => []
  | n + 1, rands, pool =>
    let idx := rands.headD 0 % pool.length
    match pool.get? idx with
    | some x => x :: sampleAux n rands.tail (pool.eraseIdx idx)
    | none => []

/-- Python `random.sample(population, n)`: raises `ValueError` ("Sample
larger than population or is negative") when `n` exceeds the population
size, otherwise returns `n` items drawn without replacement.  The
population itself is copied, never mutated. -/
def randomSample (rands : List Nat) (population : List α) (n : Nat) :
    Except AgentError (List α) :=
  if n ≤ population.length then .ok (sampleAux n rands population)
  else .error .insufficientData

/-- State of `Reservoir`: the capacity `maxlen`, the ever-seen counter `i`
and the backing deque, exactly the fields set up by `Reservoir.__init__`
(which stores `maxlen`, sets `i = 0` and an empty deque, and performs no
validation whatsoever). -/
structure Reservoir (α : Type) where
  maxlen : Nat
  i : Nat
  reservoir : List α
deriving DecidableEq, Repr

/-- Python `Reservoir.__init__(maxlen)`. -/
def Reservoir.init (maxlen : Nat) : Reservoir α :=
  { maxlen := maxlen, i := 0, reservoir := [] }

/-- The admission probability `self.maxlen / self.i` (Python 3 true
division, modelled over `ℚ`). -/
def admissionProb (maxlen i : Nat) : ℚ := (maxlen : ℚ) / (i : ℚ)

/-- Python `Reservoir.append(item)`.  `u` stands for the draw
`np.random.rand()` (uniform on `[0,1)`) and `slot` for the draw
`np.random.choice(self.maxlen)` (uniform on `{0, …, maxlen-1}`); both are
passed in explicitly.  The counter is incremented first; if the deque is
not yet at capacity the item is appended, otherwise it replaces the deque
entry at `slot` exactly when `u < maxlen / i`. -/
def Reservoir.append (st : Reservoir α) (item : α) (u : ℚ) (slot : Nat) :
    Reservoir α :=
  if st.reservoir.length < st.maxlen then
    { st with i := st.i + 1, reservoir := st.reservoir ++ [item] }
  else if u < admissionProb st.maxlen (st.i + 1) then
    { st with i := st.i + 1, reservoir := st.reservoir.set slot item }
  else
    { st with i := st.i + 1 }

/-- Python `Reservoir.__len__`. -/
def Reservoir.size (st : Reservoir α) : Nat := st.reservoir.length

/-- Python `Reservoir.sample(n)`: delegates to `random.sample`. -/
def Reservoir.sample (st : Reservoir α) (n : Nat) (rands : List Nat) :
    Except AgentError (List α) :=
  randomSample rands st.reservoir n

/-- Method-level view of `Reservoir.sample`: the returned value together
with the buffer state afterwards.  `random.sample` copies the population,
so `self.reservoir` is untouched. -/
def Reservoir.sampleM (st : Reservoir α) (n : Nat) (rands : List Nat) :
    Except AgentError (List α) × Reservoir α :=
  (st.sample n rands, st)

/-- A sequence of `Reservoir.append` calls; each element carries the item
together with the two random draws its call consumes. -/
def Reservoir.appendAll (st : Reservoir α) (items : List (α × ℚ × Nat)) :
    Reservoir α :=
  items.foldl (fun s d => s.append d.1 d.2.1 d.2.2) st

/-- State of `CircularBuffer`: the optional capacity and the backing
`deque(maxlen=maxlen)`, as set up by `CircularBuffer.__init__` (default
`maxlen=None`; no validation is performed). -/
structure CircularBuffer (α : Type) where
  maxlen : Option Nat
  buffer : List α
deriving DecidableEq, Repr

/-- Python `CircularBuffer.__init__(maxlen=None)`. -/
def CircularBuffer.init (maxlen : Option Nat) : CircularBuffer α :=
  { maxlen := maxlen, buffer := [] }

/-- Python `CircularBuffer.append(item)`: `deque.append` on a deque with a
`maxlen` bound discards the oldest (leftmost) entries so that at most
`maxlen` remain; with `maxlen=None` it is a plain append. -/
def CircularBuffer.append (st : CircularBuffer α) (item : α) :
    CircularBuffer α :=
  match st.maxlen with
  | none => { st with buffer := st.buffer ++ [item] }
  | some c =>
    let b := st.buffer ++ [item]
    { st with buffer := b.drop (b.length - c) }

/-- Python `CircularBuffer.__len__`. -/
def CircularBuffer.size (st : CircularBuffer α) : Nat := st.buffer.length

/-- Python `CircularBuffer.sample(n)`: delegates to `random.sample`. -/
def CircularBuffer.sample (st : CircularBuffer α) (n : Nat) (rands : List Nat) :
    Except AgentError (List α) :=
  randomSample rands st.buffer n

/-- Method-level view of `CircularBuffer.sample`: value plus the buffer
state afterwards; `random.sample` leaves `self.buffer` untouched. -/
def CircularBuffer.sampleM (st : CircularBuffer α) (n : Nat) (rands : List Nat) :
    Except AgentError (List α) × CircularBuffer α :=
  (st.sample n rands, st)

/-- An externally driven operation on a circular buffer: an insertion, or a
sampling call (which carries its request size and random draws). -/
inductive BufOp (α : Type)
  | append (item : α)
  | sample (n : Nat) (rands : List Nat)

/-- Runs a sequence of operations against a circular buffer.  A `sample`
call reads but never writes the deque (`random.sample` copies), so only
`append` changes the state. -/
def CircularBuffer.run (st : CircularBuffer α) : List (BufOp α) → CircularBuffer α
  | [] => st
  | .append x :: ops => (st.append x).run ops
  | .sample _ _ :: ops => st.run ops

/-- The items inserted by a sequence of operations, in call order. -/
def appendedItems : List (BufOp α) → List α
  | [] => []
  | .append x :: ops => x :: appendedItems ops
  | .sample _ _ :: ops => appendedItems ops

end RLPoker

namespace RLPoker

/-! Basic lemmas about the buffers. -/

theorem CircularBuffer.append_maxlen (st : CircularBuffer α) (x : α) :
    (st.append x).maxlen = st.maxlen := by
  cases h : st.maxlen <;> simp [CircularBuffer.append, h]

theorem CircularBuffer.append_buffer_some (st : CircularBuffer α) (x : α)
    (C : Nat) (hm : st.maxlen = some C) :
    (st.append x).buffer =
      (st.buffer ++ [x]).drop ((st.buffer ++ [x]).length - C) := by
  simp [CircularBuffer.append, hm]

theorem CircularBuffer.append_buffer_none (st : CircularBuffer α) (x : α)
    (hm : st.maxlen = none) :
    (st.append x).buffer = st.buffer ++ [x] := by
  simp [CircularBuffer.append, hm]

theorem drop_last_c_append (m r : List α) (C : Nat) :
    (m.drop (m.length - C) ++ r).drop ((m.drop (m.length - C) ++ r).length - C)
      = (m ++ r).drop ((m ++ r).length - C) := by
  have h1 : m.drop (m.length - C) ++ r = (m ++ r).drop (m.length - C) :=
    (List.drop_append_of_le_length (Nat.sub_le _ _)).symm
  rw [h1, List.drop_drop]
  congr 1
  simp only [List.length_drop, List.length_append]
  omega

theorem CircularBuffer.run_buffer (C : Nat) (st : CircularBuffer α)
    (hm : st.maxlen = some C) (hlen : st.buffer.length ≤ C)
    (ops : List (BufOp α)) :
    (st.run ops).buffer =
      (st.buffer ++ appendedItems ops).drop
        ((st.buffer ++ appendedItems ops).length - C) := by
  induction ops generalizing st with
  | nil =>
    simp only [CircularBuffer.run, appendedItems, List.append_nil]
    rw [Nat.sub_eq_zero_of_le hlen, List.drop_zero]
  | cons op rest ih =>
    cases op with
    | sample n rands => exact ih st hm hlen
    | append x =>
      show ((st.append x).run rest).buffer = _
      have hm' : (st.append x).maxlen = some C := by
        rw [CircularBuffer.append_maxlen, hm]
      have hb := CircularBuffer.append_buffer_some st x C hm
      have hlen' : (st.append x).buffer.length ≤ C := by
        rw [hb, List.length_drop]
        omega
      rw [ih (st.append x) hm' hlen', hb, drop_last_c_append]
      simp [appendedItems, List.append_assoc]

theorem CircularBuffer.run_buffer_none (st : CircularBuffer α)
    (hm : st.maxlen = none) (ops : List (BufOp α)) :
    (st.run ops).buffer = st.buffer ++ appendedItems ops := by
  induction ops generalizing st with
  | nil => simp [CircularBuffer.run, appendedItems]
  | cons op rest ih =>
    cases op with
    | sample n rands =>
      show (st.run rest).buffer = _
      rw [ih st hm]
      rfl
    | append x =>
      show ((st.append x).run rest).buffer = _
      have hm' : (st.append x).maxlen = none := by
        rw [CircularBuffer.append_maxlen, hm]
      rw [ih (st.append x) hm', CircularBuffer.append_buffer_none st x hm]
      simp [appendedItems]

theorem Reservoir.append_i (st : Reservoir α) (x : α) (u : ℚ) (slot : Nat) :
    (st.append x u slot).i = st.i + 1 := by
  unfold Reservoir.append
  split
  · rfl
  · split <;> rfl

theorem Reservoir.maxlen_after_append (st : Reservoir α) (x : α) (u : ℚ) (slot : Nat) :
    (st.append x u slot).maxlen = st.maxlen := by
  unfold Reservoir.append
  split
  · rfl
  · split <;> rfl

theorem Reservoir.append_length (st : Reservoir α) (x : α) (u : ℚ) (slot : Nat) :
    (st.append x u slot).reservoir.length =
      if st.reservoir.length < st.maxlen then st.reservoir.length + 1
      else st.reservoir.length := by
  unfold Reservoir.append
  split
  · simp [*]
  · split <;> simp [*]

theorem perm_cons_eraseIdx (l : List α) (i : Nat) (hi : i < l.length) :
    l.Perm (l.get ⟨i, hi⟩ :: l.eraseIdx i) := by
  induction l generalizing i with
  | nil => simp at hi
  | cons a t ih =>
    cases i with
    | zero => simp [List.eraseIdx]
    | succ j =>
      have hj : j < t.length := by simpa using hi
      have h1 := ih j hj
      exact (h1.cons a).trans (List.Perm.swap _ _ _)

theorem sampleAux_spec (n : Nat) (rands : List Nat) (pool : List α)
    (h : n ≤ pool.length) :
    (sampleAux n rands pool).length = n ∧ List.Subperm (sampleAux n rands pool) pool := by
  induction n generalizing rands pool with
  | zero => simp [sampleAux]
  | succ m ih =>
    have hpos : 0 < pool.length := by omega
    have hidx : rands.headD 0 % pool.length < pool.length := Nat.mod_lt _ hpos
    have hget : pool.get? (rands.headD 0 % pool.length) =
        some (pool.get ⟨rands.headD 0 % pool.length, hidx⟩) :=
      List.get?_eq_get hidx
    have hlen := List.length_eraseIdx_add_one hidx
    have hrec := ih rands.tail (pool.eraseIdx (rands.headD 0 % pool.length)) (by omega)
    constructor
    · simp only [sampleAux, hget]
      simpa using hrec.1
    · simp only [sampleAux, hget]
      have hperm := perm_cons_eraseIdx pool (rands.headD 0 % pool.length) hidx
      have hcons : List.Subperm
          (pool.get ⟨rands.headD 0 % pool.length, hidx⟩ ::
            sampleAux m rands.tail (pool.eraseIdx (rands.headD 0 % pool.length)))
          (pool.get ⟨rands.headD 0 % pool.length, hidx⟩ ::
            pool.eraseIdx (rands.headD 0 % pool.length)) :=
        (List.subperm_cons _).2 hrec.2
      exact hcons.trans hperm.symm.subperm

theorem randomSample_ok (rands : List Nat) (pool : List α) (n : Nat)
    (h : n ≤ pool.length) :
    ∃ l, randomSample rands pool n = .ok l ∧ l.length = n ∧ List.Subperm l pool ∧
      (pool.Nodup → l.Nodup) := by
  refine ⟨sampleAux n rands pool, ?_, (sampleAux_spec n rands pool h).1,
    (sampleAux_spec n rands pool h).2, ?_⟩
  · simp [randomSample, h]
  · intro hnd
    obtain ⟨w, hw, hsub⟩ := (sampleAux_spec n rands pool h).2
    exact hw.nodup (hsub.nodup hnd)

theorem randomSample_err (rands : List Nat) (pool : List α) (n : Nat)
    (h : pool.length < n) :
    randomSample rands pool n = .error .insufficientData := by
  simp [randomSample]
  omega

theorem Reservoir.append_size_inv (st : Reservoir α) (x : α) (u : ℚ) (slot : Nat)
    (h : st.reservoir.length = min st.i st.maxlen) :
    (st.append x u slot).reservoir.length =
      min (st.append x u slot).i (st.append x u slot).maxlen := by
  rw [Reservoir.append_length, Reservoir.append_i, Reservoir.maxlen_after_append]
  rcases Nat.lt_or_ge st.reservoir.length st.maxlen with hlt | hge
  · rw [if_pos hlt]
    rw [Nat.min_def] at h ⊢
    split at h <;> split <;> omega
  · rw [if_neg (by omega)]
    rw [Nat.min_def] at h ⊢
    split at h <;> split <;> omega

theorem Reservoir.appendAll_size (st : Reservoir α) (items : List (α × ℚ × Nat))
    (h : st.reservoir.length = min st.i st.maxlen) :
    (st.appendAll items).reservoir.length = min (st.i + items.length) st.maxlen := by
  induction items generalizing st with
  | nil => simpa [Reservoir.appendAll] using h
  | cons d rest ih =>
    have hstep := ih (st.append d.1 d.2.1 d.2.2)
      (Reservoir.append_size_inv st d.1 d.2.1 d.2.2 h)
    rw [Reservoir.append_i, Reservoir.maxlen_after_append] at hstep
    show ((st.append d.1 d.2.1 d.2.2).appendAll rest).reservoir.length = _
    rw [hstep]
    simp only [List.length_cons]
    rw [Nat.min_def, Nat.min_def]
    split <;> split <;> omega

end RLPoker

namespace RLPoker

/-! Claim theorems about the buffers. -/

/-- C3: For both buffer classes, `sample(n)` with current occupancy
strictly below `n` fails with the insufficient-data error (the `ValueError`
`random.sample` raises when the sample is larger than the population), and
`sample(occupancy)` succeeds, whatever random draws are consumed. -/
theorem sample_insufficient_data_boundary (α : Type) (rb : Reservoir α)
    (cb : CircularBuffer α) (n m : Nat) (r1 r2 r3 r4 : List Nat)
    (h1 : rb.size < n) (h2 : cb.size < m) :
    rb.sample n r1 = .error .insufficientData ∧
    cb.sample m r2 = .error .insufficientData ∧
    (∃ l, rb.sample rb.size r3 = .ok l) ∧
    (∃ l, cb.sample cb.size r4 = .ok l) := by
  refine ⟨randomSample_err r1 rb.reservoir n h1, randomSample_err r2 cb.buffer m h2, ?_, ?_⟩
  · obtain ⟨l, hl, -⟩ := randomSample_ok r3 rb.reservoir rb.size (Nat.le_refl _)
    exact ⟨l, hl⟩
  · obtain ⟨l, hl, -⟩ := randomSample_ok r4 cb.buffer cb.size (Nat.le_refl _)
    exact ⟨l, hl⟩

theorem sample_insufficient_data_boundary_witness :
    (Reservoir.mk 3 5 [10, 20] : Reservoir Nat).size < 3 ∧
    (CircularBuffer.mk (some 2) [7] : CircularBuffer Nat).size < 2 ∧
    ((Reservoir.mk 3 5 [10, 20] : Reservoir Nat).sample 3 [0] = .error .insufficientData ∧
     (CircularBuffer.mk (some 2) [7] : CircularBuffer Nat).sample 2 [0] = .error .insufficientData ∧
     (∃ l, (Reservoir.mk 3 5 [10, 20] : Reservoir Nat).sample
        (Reservoir.mk 3 5 [10, 20] : Reservoir Nat).size [1] = .ok l) ∧
     (∃ l, (CircularBuffer.mk (some 2) [7] : CircularBuffer Nat).sample
        (CircularBuffer.mk (some 2) [7] : CircularBuffer Nat).size [1] = .ok l)) :=
  ⟨by decide, by decide,
    sample_insufficient_data_boundary Nat _ _ 3 2 [0] [0] [1] [1] (by decide) (by decide)⟩

/-- C4: A recency buffer of capacity `C ≥ 1`, after a run of operations
that inserts more than `C` items, holds exactly the last `C` inserted items
in insertion order (strict FIFO eviction), regardless of any sampling calls
interleaved between the insertions. -/
theorem circular_buffer_fifo (α : Type) (C : Nat) (ops : List (BufOp α))
    (hC : 1 ≤ C) (hn : C < (appendedItems ops).length) :
    ((CircularBuffer.init (some C) : CircularBuffer α).run ops).buffer =
      (appendedItems ops).drop ((appendedItems ops).length - C) := by
  have h := CircularBuffer.run_buffer C (CircularBuffer.init (some C)) rfl
    (by simp [CircularBuffer.init]) ops
  simpa [CircularBuffer.init] using h

theorem circular_buffer_fifo_witness :
    1 ≤ 2 ∧
    2 < (appendedItems ([.append 1, .sample 1 [0], .append 2, .append 3] : List (BufOp Nat))).length ∧
    ((CircularBuffer.init (some 2) : CircularBuffer Nat).run
        [.append 1, .sample 1 [0], .append 2, .append 3]).buffer =
      (appendedItems ([.append 1, .sample 1 [0], .append 2, .append 3] : List (BufOp Nat))).drop
        ((appendedItems ([.append 1, .sample 1 [0], .append 2, .append 3] : List (BufOp Nat))).length - 2) :=
  ⟨by decide, by decide,
    circular_buffer_fifo Nat 2 [.append 1, .sample 1 [0], .append 2, .append 3]
      (by decide) (by decide)⟩

/-- C6: Starting from a freshly constructed reservoir of any capacity, the
occupancy after any sequence of appends is `min(number of appends,
capacity)`, no matter which random draws the appends consume. -/
theorem reservoir_occupancy_min (α : Type) (C : Nat)
    (items : List (α × ℚ × Nat)) :
    ((Reservoir.init C : Reservoir α).appendAll items).size = min items.length C := by
  have h := Reservoir.appendAll_size (Reservoir.init C : Reservoir α) items
    (by simp [Reservoir.init])
  simpa [Reservoir.size, Reservoir.init] using h

/-- C7: On either buffer with occupancy at least the request size, `sample`
succeeds with a list of exactly the requested length drawn without
replacement from the buffer contents (a sub-permutation, hence containing
no duplicate records when the contents are duplicate-free), and the buffer
state is left unchanged. -/
theorem sample_without_replacement (α : Type) (rb : Reservoir α)
    (cb : CircularBuffer α) (n m : Nat) (r1 r2 : List Nat)
    (h1 : n ≤ rb.size) (h2 : m ≤ cb.size) :
    (∃ l, rb.sample n r1 = .ok l ∧ l.length = n ∧ List.Subperm l rb.reservoir ∧
      (rb.reservoir.Nodup → l.Nodup)) ∧
    (∃ l, cb.sample m r2 = .ok l ∧ l.length = m ∧ List.Subperm l cb.buffer ∧
      (cb.buffer.Nodup → l.Nodup)) ∧
    (rb.sampleM n r1).2 = rb ∧ (cb.sampleM m r2).2 = cb :=
  ⟨randomSample_ok r1 rb.reservoir n h1, randomSample_ok r2 cb.buffer m h2, rfl, rfl⟩

theorem sample_without_replacement_witness :
    2 ≤ (Reservoir.mk 2 2 [4, 5] : Reservoir Nat).size ∧
    2 ≤ (CircularBuffer.mk (some 3) [1, 2, 3] : CircularBuffer Nat).size ∧
    ((∃ l, (Reservoir.mk 2 2 [4, 5] : Reservoir Nat).sample 2 [1, 0] = .ok l ∧
        l.length = 2 ∧ List.Subperm l [4, 5] ∧ (([4, 5] : List Nat).Nodup → l.Nodup)) ∧
     (∃ l, (CircularBuffer.mk (some 3) [1, 2, 3] : CircularBuffer Nat).sample 2 [0, 0] = .ok l ∧
        l.length = 2 ∧ List.Subperm l [1, 2, 3] ∧ (([1, 2, 3] : List Nat).Nodup → l.Nodup)) ∧
     ((Reservoir.mk 2 2 [4, 5] : Reservoir Nat).sampleM 2 [1, 0]).2 = Reservoir.mk 2 2 [4, 5] ∧
     ((CircularBuffer.mk (some 3) [1, 2, 3] : CircularBuffer Nat).sampleM 2 [0, 0]).2 =
        CircularBuffer.mk (some 3) [1, 2, 3]) :=
  ⟨by decide, by decide,
    sample_without_replacement Nat _ _ 2 2 [1, 0] [0, 0] (by decide) (by decide)⟩

/-- C10: A `CircularBuffer` constructed with the default `maxlen = None` is
unbounded: running any sequence of operations from the fresh buffer leaves
exactly the appended items, in order, so nothing is ever evicted and the
occupancy equals the number of appends. -/
theorem circular_buffer_default_unbounded (α : Type) (ops : List (BufOp α)) :
    ((CircularBuffer.init none : CircularBuffer α).run ops).buffer = appendedItems ops ∧
    ((CircularBuffer.init none : CircularBuffer α).run ops).size =
      (appendedItems ops).length := by
  have h := CircularBuffer.run_buffer_none (CircularBuffer.init none : CircularBuffer α) rfl ops
  constructor
  · simpa [CircularBuffer.init] using h
  · rw [CircularBuffer.size, h]
    simp [CircularBuffer.init]

/-- Concrete reservoir used by witnesses: capacity 2, counter 5, holding
`[10, 20]`. -/
def exReservoir : Reservoir Nat := ⟨2, 5, [10, 20]⟩

/-- C5: characterization of `Reservoir.append` under the occupancy
invariant.  While the counter is still below capacity the item is appended
(kept unconditionally); once the counter has reached capacity, the item is
kept exactly when the admission draw `u` falls strictly below
`maxlen / i` (with `i` the post-increment counter), in which case it
overwrites the slot chosen by the slot draw — the previous occupant of that
slot is discarded and every other slot is untouched — and otherwise the
contents are unchanged. -/
theorem reservoir_append_admission (α : Type) (st : Reservoir α) (x : α)
    (u : ℚ) (slot : Nat)
    (hinv : st.reservoir.length = min st.i st.maxlen) :
    (st.i < st.maxlen → (st.append x u slot).reservoir = st.reservoir ++ [x]) ∧
    (st.maxlen ≤ st.i →
      (st.append x u slot).reservoir =
        if u < admissionProb st.maxlen (st.i + 1) then st.reservoir.set slot x
        else st.reservoir) ∧
    (st.maxlen ≤ st.i → slot < st.maxlen →
      u < admissionProb st.maxlen (st.i + 1) →
      ((st.append x u slot).reservoir[slot]? = some x ∧
       ∀ j, j ≠ slot → (st.append x u slot).reservoir[j]? = st.reservoir[j]?)) := by
  have hlen2 : st.maxlen ≤ st.i → st.reservoir.length = st.maxlen := by
    intro h
    rw [hinv, Nat.min_def]
    split <;> omega
  refine ⟨?_, ?_, ?_⟩
  · intro h
    have hlt : st.reservoir.length < st.maxlen := by
      rw [hinv, Nat.min_def]
      split <;> omega
    simp [Reservoir.append, hlt]
  · intro h
    have hlt : ¬ st.reservoir.length < st.maxlen := by
      rw [hlen2 h]
      omega
    by_cases hu : u < admissionProb st.maxlen (st.i + 1)
    · simp [Reservoir.append, hlt, hu]
    · simp [Reservoir.append, hlt, hu]
  · intro h hslot hu
    have hlt : ¬ st.reservoir.length < st.maxlen := by
      rw [hlen2 h]
      omega
    have hres : (st.append x u slot).reservoir = st.reservoir.set slot x := by
      simp [Reservoir.append, hlt, hu]
    rw [hres]
    have hsl : slot < st.reservoir.length := by
      rw [hlen2 h]
      exact hslot
    constructor
    · simp [List.getElem?_set, hsl]
    · intro j hj
      simp only [List.getElem?_set]
      rw [if_neg (fun hc : slot = j => hj hc.symm)]

theorem reservoir_append_admission_witness :
    exReservoir.reservoir.length = min exReservoir.i exReservoir.maxlen ∧
    ((exReservoir.i < exReservoir.maxlen →
        (exReservoir.append 99 (1/10 : ℚ) 1).reservoir = exReservoir.reservoir ++ [99]) ∧
     (exReservoir.maxlen ≤ exReservoir.i →
        (exReservoir.append 99 (1/10 : ℚ) 1).reservoir =
          if (1/10 : ℚ) < admissionProb exReservoir.maxlen (exReservoir.i + 1) then
            exReservoir.reservoir.set 1 99
          else exReservoir.reservoir) ∧
     (exReservoir.maxlen ≤ exReservoir.i → 1 < exReservoir.maxlen →
        (1/10 : ℚ) < admissionProb exReservoir.maxlen (exReservoir.i + 1) →
        ((exReservoir.append 99 (1/10 : ℚ) 1).reservoir[1]? = some 99 ∧
         ∀ j, j ≠ 1 → (exReservoir.append 99 (1/10 : ℚ) 1).reservoir[j]? =
            exReservoir.reservoir[j]?))) :=
  ⟨by decide, reservoir_append_admission Nat exReservoir 99 (1/10 : ℚ) 1 (by decide)⟩

/-- C8 (counterexample): constructing a buffer with capacity 0 does not
fail — there is no `ConfigurationError` anywhere in the code and neither
constructor validates its argument — and the resulting reservoir is a
usable buffer whose capacity is 0, not `≥ 1`; its `append` runs without
error. -/
theorem capacity_zero_constructible :
    (Reservoir.init 0 : Reservoir Nat).maxlen = 0 ∧
    ¬ 1 ≤ (Reservoir.init 0 : Reservoir Nat).maxlen ∧
    (CircularBuffer.init (some 0) : CircularBuffer Nat).maxlen = some 0 ∧
    ((Reservoir.init 0 : Reservoir Nat).append 7 (1/2 : ℚ) 0).i = 1 := by
  refine ⟨rfl, by decide, rfl, ?_⟩
  rw [Reservoir.append_i]
  rfl

/-- C8 (amended): construction with any capacity, 0 included, succeeds and
stores the capacity unvalidated; the divisor of the reservoir admission
probability is the post-increment ever-seen counter, which is at least 1
and hence nonzero on every `append` (so `maxlen / i` is never a division by
zero, though not for the capacity reason the claim gives); and a capacity-0
reservoir simply never stores an item. -/
theorem capacity_zero_behavior :
    (∀ C : Nat, (Reservoir.init C : Reservoir Nat).maxlen = C ∧
      (CircularBuffer.init (some C) : CircularBuffer Nat).maxlen = some C) ∧
    (∀ (st : Reservoir Nat) (x : Nat) (u : ℚ) (slot : Nat),
      (st.append x u slot).i = st.i + 1 ∧ ((st.i + 1 : Nat) : ℚ) ≠ 0) ∧
    (∀ items : List (Nat × ℚ × Nat),
      ((Reservoir.init 0 : Reservoir Nat).appendAll items).reservoir = []) := by
  refine ⟨fun C => ⟨rfl, rfl⟩,
    fun st x u slot => ⟨Reservoir.append_i st x u slot, ?_⟩, ?_⟩
  · exact Nat.cast_ne_zero.mpr (Nat.succ_ne_zero st.i)
  · have key : ∀ (items : List (Nat × ℚ × Nat)) (st : Reservoir Nat),
        st.maxlen = 0 → st.reservoir = [] → (st.appendAll items).reservoir = [] := by
      intro items
      induction items with
      | nil => intro st h0 hnil; exact hnil
      | cons d rest ih =>
        intro st h0 hnil
        show ((st.append d.1 d.2.1 d.2.2).appendAll rest).reservoir = []
        refine ih (st.append d.1 d.2.1 d.2.2) ?_ ?_
        · rw [Reservoir.maxlen_after_append, h0]
        · unfold Reservoir.append
          rw [h0, hnil]
          simp
    exact fun items => key items (Reservoir.init 0) rfl rfl

/-! The Q-learning bootstrap target of `Agent.__init__` / `train_q_network`,
and the shape assertions of `predict_q` / `predict_policy`. -/

/-- A replay-memory transition, the dict
`{state, action, next_state, reward, terminal}` that `train_q_network`
destructures. -/
structure Transition where
  state : List ℚ
  action : Nat
  next_state : List ℚ
  reward : ℚ
  terminal : Bool
deriving DecidableEq, Repr

/-- The `tf.reduce_max` over the action axis of one output row of the
target network.  The network's output row has `action_dim ≥ 1` entries, so
the `[]` default is never reached on real inputs. -/
def reduceMax : List ℚ → ℚ
  | [] => 0
  | x :: xs => xs.foldl max x

/-- One entry of `not_terminals = np.array([not t for t in terminals])`
cast to float: `float(not t)`. -/
def notTerminalFlag (t : Bool) : ℚ := if t then 0 else 1

/-- The per-sample value of the graph node
`next_q = reward + not_terminals * reduce_max(target_q_output, axis=1)`,
with `qt` the target network's output row (one value per action) on a given
state; `train_q_network` feeds `next_states` into the target network's
input. -/
def bootstrapTarget (qt : List ℚ → List ℚ) (d : Transition) : ℚ :=
  d.reward + notTerminalFlag d.terminal * reduceMax (qt d.next_state)

/-- The bootstrap-target vector computed by one `train_q_network` call on a
sampled minibatch: the field arrays are extracted exactly as in the Python
(`rewards`, `terminals` negated to `not_terminals`, `next_states`), and the
graph combines them elementwise. -/
def trainQTargets (qt : List ℚ → List ℚ) (minibatch : List Transition) :
    List ℚ :=
  let rewards := minibatch.map (·.reward)
  let next_states := minibatch.map (·.next_state)
  let terminals := minibatch.map (·.terminal)
  let not_terminals := terminals.map notTerminalFlag
  (rewards.zip (not_terminals.zip next_states)).map
    (fun x => x.1 + x.2.1 * reduceMax (qt x.2.2))

theorem trainQTargets_eq_map (qt : List ℚ → List ℚ) (b : List Transition) :
    trainQTargets qt b = b.map (bootstrapTarget qt) := by
  induction b with
  | nil => rfl
  | cons d rest ih =>
    simp only [trainQTargets, List.map_cons, List.zip_cons_cons] at ih ⊢
    rw [ih]
    rfl

/-- C2: for every sampled minibatch and position `k` in it, the bootstrap
regression target computed by `train_q_network` equals
`reward + not_terminal * max over actions of the target network's output on
next_state`; in particular for a terminal transition it equals the reward
alone and does not depend on the target network at all (`qt'` arbitrary). -/
theorem train_q_bootstrap_target (qt qt' : List ℚ → List ℚ)
    (minibatch : List Transition) (k : Nat) (hk : k < minibatch.length) :
    (trainQTargets qt minibatch)[k]? =
      some (minibatch[k].reward +
        notTerminalFlag minibatch[k].terminal *
          reduceMax (qt minibatch[k].next_state)) ∧
    (minibatch[k].terminal = true →
      (trainQTargets qt minibatch)[k]? = some minibatch[k].reward ∧
      (trainQTargets qt minibatch)[k]? = (trainQTargets qt' minibatch)[k]?) := by
  have hval : ∀ f : List ℚ → List ℚ,
      (trainQTargets f minibatch)[k]? = some (bootstrapTarget f minibatch[k]) := by
    intro f
    rw [trainQTargets_eq_map, List.getElem?_map, List.getElem?_eq_getElem hk]
    rfl
  refine ⟨hval qt, fun ht => ⟨?_, ?_⟩⟩
  · rw [hval qt]
    simp [bootstrapTarget, notTerminalFlag, ht]
  · rw [hval qt, hval qt']
    simp [bootstrapTarget, notTerminalFlag, ht]

/-- Concrete one-element minibatch used by witnesses: a terminal transition
with reward 5. -/
def exBatch : List Transition := [⟨[1, 0], 0, [0, 1], 5, true⟩]

theorem train_q_bootstrap_target_witness :
    0 < exBatch.length ∧
    ((trainQTargets (fun _ => [2, 3]) exBatch)[0]? =
      some (exBatch[0].reward +
        notTerminalFlag exBatch[0].terminal *
          reduceMax ((fun _ => ([2, 3] : List ℚ)) exBatch[0].next_state)) ∧
    (exBatch[0].terminal = true →
      (trainQTargets (fun _ => [2, 3]) exBatch)[0]? = some exBatch[0].reward ∧
      (trainQTargets (fun _ => [2, 3]) exBatch)[0]? =
        (trainQTargets (fun _ => [9, 9, 9]) exBatch)[0]?)) :=
  ⟨by decide,
    train_q_bootstrap_target (fun _ => [2, 3]) (fun _ => [9, 9, 9]) exBatch 0 (by decide)⟩

/-- A numpy array as the prediction methods see it: its shape vector and
(abstractly) its entries. -/
structure NPArray where
  shape : List Nat
  entries : List ℚ
deriving DecidableEq, Repr

/-- The prediction-relevant slice of `Agent`: the configured input width
and the two network outputs as opaque functions (what
`sess.run(network['output'], feed_dict=...)` returns on a fed batch). -/
structure AgentNet where
  input_dim : Nat
  qOutput : NPArray → NPArray
  policyOutput : NPArray → NPArray

/-- Python `Agent.predict_q`: `assert len(state.shape) == 2` and
`assert state.shape[1] == self.input_dim` run before the session call; a
failing `assert` raises (modelled as the shape-mismatch error) and no
prediction is produced. -/
def AgentNet.predict_q (a : AgentNet) (state : NPArray) :
    Except AgentError NPArray :=
  if state.shape.length = 2 then
    if state.shape.getD 1 0 = a.input_dim then .ok (a.qOutput state)
    else .error .shapeMismatch
  else .error .shapeMismatch

/-- Python `Agent.predict_policy`: the same two assertions guard the policy
network's session call. -/
def AgentNet.predict_policy (a : AgentNet) (state : NPArray) :
    Except AgentError NPArray :=
  if state.shape.length = 2 then
    if state.shape.getD 1 0 = a.input_dim then .ok (a.policyOutput state)
    else .error .shapeMismatch
  else .error .shapeMismatch

/-- C9: a state batch whose feature width (second shape component) differs
from the configured input width makes both `predict_q` and
`predict_policy` fail with the shape-mismatch error (the `AssertionError`
of the guarding `assert`), and neither returns any prediction. -/
theorem predict_shape_mismatch (a : AgentNet) (state : NPArray) (b w : Nat)
    (hs : state.shape = [b, w]) (hw : w ≠ a.input_dim) :
    a.predict_q state = .error .shapeMismatch ∧
    a.predict_policy state = .error .shapeMismatch ∧
    (∀ out, a.predict_q state ≠ .ok out) ∧
    (∀ out, a.predict_policy state ≠ .ok out) := by
  have hq : a.predict_q state = .error .shapeMismatch := by
    rw [AgentNet.predict_q, hs]
    simp [hw]
  have hp : a.predict_policy state = .error .shapeMismatch := by
    rw [AgentNet.predict_policy, hs]
    simp [hw]
  refine ⟨hq, hp, fun out hout => ?_, fun out hout => ?_⟩
  · rw [hq] at hout
    exact Except.noConfusion hout
  · rw [hp] at hout
    exact Except.noConfusion hout

theorem predict_shape_mismatch_witness :
    (NPArray.mk [2, 4] [1, 2, 3, 4, 5, 6, 7, 8]).shape = [2, 4] ∧ 4 ≠ 3 ∧
    ((AgentNet.mk 3 id id).predict_q (NPArray.mk [2, 4] [1, 2, 3, 4, 5, 6, 7, 8]) =
        .error .shapeMismatch ∧
     (AgentNet.mk 3 id id).predict_policy (NPArray.mk [2, 4] [1, 2, 3, 4, 5, 6, 7, 8]) =
        .error .shapeMismatch ∧
     (∀ out, (AgentNet.mk 3 id id).predict_q
        (NPArray.mk [2, 4] [1, 2, 3, 4, 5, 6, 7, 8]) ≠ .ok out) ∧
     (∀ out, (AgentNet.mk 3 id id).predict_policy
        (NPArray.mk [2, 4] [1, 2, 3, 4, 5, 6, 7, 8]) ≠ .ok out)) :=
  ⟨rfl, by decide,
    predict_shape_mismatch (AgentNet.mk 3 id id)
      (NPArray.mk [2, 4] [1, 2, 3, 4, 5, 6, 7, 8]) 2 4 rfl (by decide)⟩

/-! The TensorFlow-graph fragment of `Agent.__init__` that builds the
target-network update ops, and `Agent.update_target_network`.  A variable
is a (full scoped name, value) pair; one abstract scalar stands for a whole
weight tensor. -/

/-- Python `re.match(pattern, name)` for the literal patterns used by this
code (`'current_q'`, `'target_q'`): `re.match` anchors at the start of the
string, so for a literal pattern it succeeds exactly when `name` begins
with `pattern`. -/
def reMatchLiteral (pattern nm : String) : Bool :=
  pattern.data.isPrefixOf nm.data

/-- `tf.get_collection(tf.GraphKeys.GLOBAL_VARIABLES, scope)`: filters the
global-variable collection by `re.match(scope, variable.name)`. -/
def getCollection (vars : List (String × ℚ)) (scope : String) :
    List (String × ℚ) :=
  vars.filter (fun v => reMatchLiteral scope v.1)

/-- The variables created by `create_q_network` / `create_policy_network`
under the given scope path (which is nested inside the enclosing agent
scope): one named variable per parameter value.  The `dense/kernel`-style
suffixes tensorflow generates are abbreviated to `/param_k`; only the
scope-path prefix matters to `get_collection`'s filter. -/
def networkVariables (scopePath : String) (params : List ℚ) :
    List (String × ℚ) :=
  params.enum.map (fun p => (scopePath ++ ("/param_" ++ toString p.1), p.2))

/-- The global-variable collection after `Agent.__init__(name, ...)`: the
three networks are created inside `tf.variable_scope('agent_{}'.format(name))`
under the inner scopes `'current_q'`, `'target_q'` and `'policy'`, so every
variable's full name starts with `agent_<name>/`. -/
def agentGlobalVariables (name : String) (cp tp pp : List ℚ) :
    List (String × ℚ) :=
  networkVariables (("agent_" ++ name) ++ "/current_q") cp ++
    networkVariables (("agent_" ++ name) ++ "/target_q") tp ++
    networkVariables (("agent_" ++ name) ++ "/policy") pp

/-- The graph state owned by one `Agent`:
`self.update_ops = [t.assign(c) for t, c in zip(target_vars, current_vars)]`
is kept as the list of (target-name, current-name) assignment pairs, where
`target_vars = get_collection(..., scope='target_q')` and
`current_vars = get_collection(..., scope='current_q')`. -/
structure AgentGraph where
  name : String
  globalVariables : List (String × ℚ)
  updateOps : List (String × String)
deriving Repr

/-- Python `Agent.__init__` (the update-op fragment). -/
def agentInit (name : String) (cp tp pp : List ℚ) : AgentGraph :=
  { name := name
    globalVariables := agentGlobalVariables name cp tp pp
    updateOps :=
      ((getCollection (agentGlobalVariables name cp tp pp) "target_q").zip
        (getCollection (agentGlobalVariables name cp tp pp) "current_q")).map
        (fun tc => (tc.1.1, tc.2.1)) }

/-- Reads a variable's current value from the collection by full name. -/
def lookupVar (vars : List (String × ℚ)) (nm : String) : Option ℚ :=
  (vars.find? (fun v => v.1 == nm)).map (fun v => v.2)

/-- Runs one `t.assign(c)` op: the value of variable `op.2` is copied into
variable `op.1`. -/
def runAssign (vars : List (String × ℚ)) (op : String × String) :
    List (String × ℚ) :=
  match lookupVar vars op.2 with
  | some v => vars.map (fun w => if w.1 == op.1 then (w.1, v) else w)
  | none => vars

/-- Python `Agent.update_target_network`: `sess.run(self.update_ops)`. -/
def updateTargetNetwork (a : AgentGraph) : AgentGraph :=
  { a with globalVariables := a.updateOps.foldl runAssign a.globalVariables }

theorem data_agent_append (s : String) :
    ("agent_" ++ s).data =
      'a' :: 'g' :: 'e' :: 'n' :: 't' :: '_' :: s.data := by
  rw [String.data_append]
  rfl

theorem isPrefixOf_current_q_false (cs : List Char) :
    "current_q".data.isPrefixOf ('a' :: cs) = false := rfl

theorem reMatch_scoped_current_q_false (s t u : String) :
    reMatchLiteral "current_q" ((("agent_" ++ s) ++ t) ++ u) = false := by
  rw [reMatchLiteral, String.data_append, String.data_append, data_agent_append]
  exact isPrefixOf_current_q_false _

theorem networkVariables_name (scopePath : String) (params : List ℚ) :
    ∀ v ∈ networkVariables scopePath params, ∃ t, v.1 = scopePath ++ t := by
  intro v hv
  obtain ⟨p, hp, hpe⟩ := List.mem_map.1 hv
  exact ⟨"/param_" ++ toString p.1, by rw [← hpe]⟩

theorem getCollection_current_q_nil (name : String) (cp tp pp : List ℚ) :
    getCollection (agentGlobalVariables name cp tp pp) "current_q" = [] := by
  rw [getCollection, List.filter_eq_nil_iff]
  intro v hv
  have hname : ∃ scope t, v.1 = (("agent_" ++ name) ++ scope) ++ t := by
    rcases List.mem_append.1 hv with hv' | hv'
    · rcases List.mem_append.1 hv' with hv'' | hv''
      · obtain ⟨t, ht⟩ := networkVariables_name _ _ v hv''
        exact ⟨"/current_q", t, ht⟩
      · obtain ⟨t, ht⟩ := networkVariables_name _ _ v hv''
        exact ⟨"/target_q", t, ht⟩
    · obtain ⟨t, ht⟩ := networkVariables_name _ _ v hv'
      exact ⟨"/policy", t, ht⟩
  obtain ⟨scope, t, ht⟩ := hname
  rw [ht, reMatch_scoped_current_q_false]
  exact Bool.false_ne_true

theorem updateTargetNetwork_of_nil (a : AgentGraph) (h : a.updateOps = []) :
    updateTargetNetwork a = a := by
  cases a with
  | mk nm gv ops =>
    have h' : ops = [] := h
    subst h'
    rfl

theorem agentInit_updateOps_nil (name : String) (cp tp pp : List ℚ) :
    (agentInit name cp tp pp).updateOps = [] := by
  show (((getCollection (agentGlobalVariables name cp tp pp) "target_q").zip
      (getCollection (agentGlobalVariables name cp tp pp) "current_q")).map
      (fun tc => (tc.1.1, tc.2.1))) = []
  rw [getCollection_current_q_nil, List.zip_nil_right, List.map_nil]

/-- C1 (refuted; code bug): `get_collection(scope='current_q')` filters by
`re.match` against *full* variable names, but every variable of the agent
lives under `agent_<name>/current_q/...`, so both filtered collections that
`Agent.__init__` zips are empty and `update_ops == []`.  Hence for every
agent `update_target_network` runs zero assignments and changes nothing,
and on the concrete agent `'a'` with current parameter 1 and target
parameter 0 the target parameter still differs from the current one after
the call — contradicting the claim that the parameters become equal. -/
theorem update_target_network_noop :
    (∀ (name : String) (cp tp pp : List ℚ),
      (agentInit name cp tp pp).updateOps = [] ∧
      updateTargetNetwork (agentInit name cp tp pp) = agentInit name cp tp pp) ∧
    lookupVar (updateTargetNetwork (agentInit "a" [1] [0] [0])).globalVariables
      "agent_a/target_q/param_0" = some 0 ∧
    lookupVar (updateTargetNetwork (agentInit "a" [1] [0] [0])).globalVariables
      "agent_a/current_q/param_0" = some 1 ∧
    (0 : ℚ) ≠ 1 := by
  have hgen : ∀ (name : String) (cp tp pp : List ℚ),
      (agentInit name cp tp pp).updateOps = [] ∧
      updateTargetNetwork (agentInit name cp tp pp) = agentInit name cp tp pp := by
    intro name cp tp pp
    exact ⟨agentInit_updateOps_nil name cp tp pp,
      updateTargetNetwork_of_nil _ (agentInit_updateOps_nil name cp tp pp)⟩
  refine ⟨hgen, ?_, ?_, by norm_num⟩
  · rw [(hgen "a" [1] [0] [0]).2]
    rfl
  · rw [(hgen "a" [1] [0] [0]).2]
    rfl

end RLPoker
